import Mathlib

/-!
Verification of the playback session manager of the podnova mobile client
(frontend/src/contexts/AudioContext.tsx).

The audio engine is embedded shallowly: the React state hooks become the
fields of `AudioState`, the `AsyncStorage` key-value store becomes an
association list carried in the state, and every asynchronous operation on
the underlying `expo-av` sound object becomes an `AudioEvent` appended to a
trace, in the order the source awaits them.  Each public operation of the
context is a pure function `AudioState → AudioState × List AudioEvent`.
Failure of `Audio.Sound.createAsync` (network error, bad URL) is modelled by
parametrising the operations over `createAsync : String → Except String Nat`,
a handle on success; the `try/catch` of the source turns an error into a
`logError` event, exactly where the catch block logs it.
-/

/-- A podcast record, as the `Podcast` interface of AudioContext.tsx. -/
structure Podcast where
  id : String
  topic_title : String
  category : String
  duration_seconds : Option Nat
  audio_url : Option String
  script : Option String
  created_at : String
deriving DecidableEq, Repr

/-- Observable effects on the outside world (the expo-av sound resource and
AsyncStorage), in the order the source code awaits them.  Resource handles
are natural numbers. -/
inductive AudioEvent where
  | saveWrite (key : String) (position duration : Int)
  | unload (handle : Nat)
  | create (handle : Nat)
  | seek (handle : Nat) (position : Int)
  | play (handle : Nat)
  | pause (handle : Nat)
  | rateChange (handle : Nat) (rate : Rat)
  | logError (msg : String)
deriving DecidableEq, Repr

/-- The mutable state of the AudioProvider: one field per React `useState`
hook, plus the AsyncStorage contents (`store`: key, position, duration). -/
structure AudioState where
  currentPodcast : Option Podcast
  sound : Option Nat
  isPlaying : Bool
  position : Int
  duration : Int
  playbackRate : Rat
  showPlayer : Bool
  store : List (String × Int × Int)
deriving DecidableEq, Repr

/-- `PLAYBACK_POSITION_KEY` of the source. -/
def PLAYBACK_POSITION_KEY : String := "@podnova_playback_position_"

/-- `AsyncStorage.setItem`: overwrite the value stored at `key`. -/
def storageSet (store : List (String × Int × Int)) (key : String)
    (position duration : Int) : List (String × Int × Int) :=
  (key, position, duration) :: store.filter (fun e => e.1 != key)

/-- `AsyncStorage.getItem` followed by `JSON.parse`. -/
def storageGet (store : List (String × Int × Int)) (key : String) :
    Option (Int × Int) :=
  (store.find? (fun e => e.1 = key)).map (fun e => e.2)

/-- `savePlaybackPosition`: returns without writing when no podcast is
loaded or the position is 0; otherwise writes the record keyed by the
current podcast id. -/
def savePlaybackPosition (s : AudioState) : AudioState × List AudioEvent :=
  match s.currentPodcast with
  | none => (s, [])
  | some p =>
      if s.position = 0 then (s, [])
      else
        ({ s with store :=
              storageSet s.store (PLAYBACK_POSITION_KEY ++ p.id) s.position s.duration },
         [AudioEvent.saveWrite (PLAYBACK_POSITION_KEY ++ p.id) s.position s.duration])

/-- `loadSavedPosition`: read the persisted record for `podcastId` and
return its position when it strictly exceeds 1000 ms, else 0. -/
def loadSavedPosition (store : List (String × Int × Int)) (podcastId : String) : Int :=
  match storageGet store (PLAYBACK_POSITION_KEY ++ podcastId) with
  | some r => if r.1 > 1000 then r.1 else 0
  | none => 0

/-- The shape of the status object delivered by expo-av callbacks. -/
structure PlaybackStatus where
  isLoaded : Bool
  isPlaying : Bool
  didJustFinish : Bool
deriving DecidableEq, Repr

/-- `onPlaybackStatusUpdate`: mirror the device playing flag; on
`didJustFinish`, reset to paused-at-zero and seek the resource to 0. -/
def onPlaybackStatusUpdate (s : AudioState) (status : PlaybackStatus) :
    AudioState × List AudioEvent :=
  if status.isLoaded then
    if status.didJustFinish then
      ({ s with isPlaying := false, position := 0 },
       match s.sound with
       | some h => [AudioEvent.seek h 0]
       | none => [])
    else ({ s with isPlaying := status.isPlaying }, [])
  else (s, [])

/-- `Audio.Sound.createAsync` applied to `{ uri: podcast.audio_url! }`: when
`audio_url` is absent the runtime value passed is `undefined` and expo-av
rejects with a null-playback-source error; otherwise the outcome depends on
the environment `createAsync`. -/
def soundCreate (createAsync : String → Except String Nat) :
    Option String → Except String Nat
  | some url => createAsync url
  | none => Except.error "Cannot load an AV asset from a null playback source"

/-- `loadPodcast`: early-return showing the player when the same podcast is
already loaded; otherwise persist and unload the current sound, create the
new sound, restore a saved position above threshold, and show the player.
Any error raised inside the body is caught and logged. -/
def loadPodcast (createAsync : String → Except String Nat)
    (s : AudioState) (podcast : Podcast) : AudioState × List AudioEvent :=
  if (s.currentPodcast.map Podcast.id == some podcast.id) && s.sound.isSome then
    ({ s with showPlayer := true }, [])
  else
    let stopped : AudioState × List AudioEvent :=
      match s.sound with
      | some h =>
          let saved := savePlaybackPosition s
          ({ saved.1 with sound := none }, saved.2 ++ [AudioEvent.unload h])
      | none => (s, [])
    match soundCreate createAsync podcast.audio_url with
    | Except.error e =>
        (stopped.1, stopped.2 ++ [AudioEvent.logError e])
    | Except.ok newSound =>
        let s2 := { stopped.1 with sound := some newSound, currentPodcast := some podcast }
        let savedPosition := loadSavedPosition s2.store podcast.id
        let restored : AudioState × List AudioEvent :=
          if savedPosition > 0 then
            ({ s2 with position := savedPosition }, [AudioEvent.seek newSound savedPosition])
          else (s2, [])
        ({ restored.1 with showPlayer := true },
         stopped.2 ++ [AudioEvent.create newSound] ++ restored.2)

/-- `togglePlayPause`: no-op without a sound; otherwise play or pause the
resource (the `isPlaying` flag is only written by the status callback). -/
def togglePlayPause (s : AudioState) : AudioState × List AudioEvent :=
  match s.sound with
  | none => (s, [])
  | some h => if s.isPlaying then (s, [AudioEvent.pause h]) else (s, [AudioEvent.play h])

/-- `seekTo`: no-op without a sound; otherwise seek the resource and set the
internal position to the requested value. -/
def seekTo (s : AudioState) (newPosition : Int) : AudioState × List AudioEvent :=
  match s.sound with
  | none => (s, [])
  | some h => ({ s with position := newPosition }, [AudioEvent.seek h newPosition])

/-- `skipForward`: seek to `min (position + 15000) duration`. -/
def skipForward (s : AudioState) : AudioState × List AudioEvent :=
  match s.sound with
  | none => (s, [])
  | some _ => seekTo s (min (s.position + 15000) s.duration)

/-- `skipBackward`: seek to `max (position - 15000) 0`. -/
def skipBackward (s : AudioState) : AudioState × List AudioEvent :=
  match s.sound with
  | none => (s, [])
  | some _ => seekTo s (max (s.position - 15000) 0)

/-- `setRate`: store the rate and apply it live when a sound is loaded. -/
def setRate (s : AudioState) (rate : Rat) : AudioState × List AudioEvent :=
  match s.sound with
  | none => ({ s with playbackRate := rate }, [])
  | some h => ({ s with playbackRate := rate }, [AudioEvent.rateChange h rate])

/-- `stopPlayback`: persist and unload the current sound when present, then
clear the whole session. -/
def stopPlayback (s : AudioState) : AudioState × List AudioEvent :=
  let stopped : AudioState × List AudioEvent :=
    match s.sound with
    | some h =>
        let saved := savePlaybackPosition s
        ({ saved.1 with sound := none }, saved.2 ++ [AudioEvent.unload h])
    | none => (s, [])
  ({ stopped.1 with
      currentPodcast := none
      isPlaying := false
      position := 0
      duration := 0
      showPlayer := false },
   stopped.2)

/-- The initial state of the provider (the `useState` defaults), over a
given pre-existing AsyncStorage content. -/
def initialState (store : List (String × Int × Int)) : AudioState :=
  { currentPodcast := none
    sound := none
    isPlaying := false
    position := 0
    duration := 0
    playbackRate := 1
    showPlayer := false
    store := store }

/-- The set of allocated audio resources after one observable event:
`create` allocates a handle, `unload` releases it. -/
def allocStep (alloc : List Nat) : AudioEvent → List Nat
  | AudioEvent.create h => h :: alloc
  | AudioEvent.unload h => alloc.filter (fun x => x != h)
  | _ => alloc

/-- The set of allocated audio resources after a trace of events. -/
def allocAfter (alloc : List Nat) (evs : List AudioEvent) : List Nat :=
  evs.foldl allocStep alloc

/-- A sequence of `loadPodcast` calls, threading the state and
concatenating the traces. -/
def runLoads (createAsync : String → Except String Nat) (s : AudioState) :
    List Podcast → AudioState × List AudioEvent
  | [] => (s, [])
  | p :: ps =>
      let r1 := loadPodcast createAsync s p
      let r2 := runLoads createAsync r1.1 ps
      (r2.1, r1.2 ++ r2.2)

/-- Every record in the store has a nonzero position. -/
def storeNonzero (store : List (String × Int × Int)) : Prop :=
  ∀ e ∈ store, e.2.1 ≠ 0

/-- At most one resource is ever allocated along every prefix of a trace. -/
def allocBound (a : List Nat) (evs : List AudioEvent) : Prop :=
  ∀ pre, pre <+: evs → (allocAfter a pre).length ≤ 1

/-- Example podcast with a valid audio URL. -/
def podA : Podcast :=
  { id := "A"
    topic_title := "Morning news"
    category := "news"
    duration_seconds := some 120
    audio_url := some "https://cdn.podnova.app/a.mp3"
    script := none
    created_at := "2024-01-01" }

/-- A second example podcast with a different id. -/
def podB : Podcast :=
  { id := "B"
    topic_title := "Tech brief"
    category := "tech"
    duration_seconds := some 90
    audio_url := some "https://cdn.podnova.app/b.mp3"
    script := none
    created_at := "2024-01-02" }

/-- Example podcast whose `audio_url` is absent. -/
def podNoUrl : Podcast :=
  { id := "N"
    topic_title := "Draft"
    category := "news"
    duration_seconds := none
    audio_url := none
    script := none
    created_at := "2024-01-03" }

/-- A session with `podA` loaded mid-listen on resource handle 7. -/
def sLoaded : AudioState :=
  { currentPodcast := some podA
    sound := some 7
    isPlaying := true
    position := 9000
    duration := 120000
    playbackRate := 1
    showPlayer := true
    store := [] }

/-- An environment in which resource creation always succeeds (handle 99). -/
def okCreate : String → Except String Nat := fun _ => Except.ok 99

/-- An environment in which resource creation always fails. -/
def badCreate : String → Except String Nat := fun _ => Except.error "network error"

theorem optionToList_length_le_one (o : Option Nat) : o.toList.length ≤ 1 := by
  cases o <;> simp

theorem allocAfter_nil (a : List Nat) : allocAfter a [] = a := rfl

theorem allocAfter_append (a : List Nat) (l1 l2 : List AudioEvent) :
    allocAfter a (l1 ++ l2) = allocAfter (allocAfter a l1) l2 :=
  List.foldl_append allocStep a l1 l2

theorem allocAfter_cons (a : List Nat) (e : AudioEvent) (l : List AudioEvent) :
    allocAfter a (e :: l) = allocAfter (allocStep a e) l := rfl

theorem allocBound_nil_intro (a : List Nat) (h : a.length ≤ 1) : allocBound a [] := by
  intro pre hpre
  rw [List.prefix_nil.mp hpre]
  exact h

theorem allocBound_cons_intro (a : List Nat) (e : AudioEvent) (evs : List AudioEvent)
    (ha : a.length ≤ 1) (hrest : allocBound (allocStep a e) evs) :
    allocBound a (e :: evs) := by
  intro pre hpre
  cases pre with
  | nil => exact ha
  | cons y ys =>
      obtain ⟨rfl, hys⟩ := List.cons_prefix_cons.mp hpre
      exact hrest ys hys

theorem prefix_append_cases {α : Type} (l1 : List α) (l2 pre : List α)
    (h : pre <+: l1 ++ l2) : pre <+: l1 ∨ ∃ q, pre = l1 ++ q ∧ q <+: l2 := by
  induction l1 generalizing pre with
  | nil => exact Or.inr ⟨pre, rfl, h⟩
  | cons x xs ih =>
      cases pre with
      | nil => exact Or.inl (List.nil_prefix)
      | cons y ys =>
          rw [List.cons_append, List.cons_prefix_cons] at h
          obtain ⟨rfl, hys⟩ := h
          rcases ih ys hys with h3 | ⟨q, rfl, hq2⟩
          · exact Or.inl (List.cons_prefix_cons.mpr ⟨rfl, h3⟩)
          · exact Or.inr ⟨q, rfl, hq2⟩

theorem allocBound_append_intro (a : List Nat) (l1 l2 : List AudioEvent)
    (h1 : allocBound a l1) (h2 : allocBound (allocAfter a l1) l2) :
    allocBound a (l1 ++ l2) := by
  intro pre hpre
  rcases prefix_append_cases l1 l2 pre hpre with hp | ⟨q, rfl, hq⟩
  · exact h1 pre hp
  · rw [allocAfter_append]
    exact h2 q hq

theorem savePlaybackPosition_fields (s : AudioState) :
    (savePlaybackPosition s).1.sound = s.sound ∧
    (savePlaybackPosition s).1.currentPodcast = s.currentPodcast ∧
    (savePlaybackPosition s).1.isPlaying = s.isPlaying ∧
    (savePlaybackPosition s).1.position = s.position ∧
    (savePlaybackPosition s).1.duration = s.duration ∧
    (savePlaybackPosition s).1.showPlayer = s.showPlayer := by
  unfold savePlaybackPosition
  cases hcp : s.currentPodcast with
  | none => simp [hcp]
  | some p => by_cases hp : s.position = 0 <;> simp [hcp, hp]

theorem allocAfter_save (a : List Nat) (s : AudioState) :
    allocAfter a (savePlaybackPosition s).2 = a := by
  unfold savePlaybackPosition
  cases hcp : s.currentPodcast with
  | none => rfl
  | some p =>
      by_cases hp : s.position = 0 <;> simp [hcp, hp, allocAfter, allocStep]

theorem allocBound_save (a : List Nat) (s : AudioState) (h : a.length ≤ 1) :
    allocBound a (savePlaybackPosition s).2 := by
  unfold savePlaybackPosition
  cases s.currentPodcast with
  | none => exact allocBound_nil_intro a h
  | some p =>
      by_cases hp : s.position = 0
      · simp only [hp, if_pos rfl]
        exact allocBound_nil_intro a h
      · simp only [if_neg hp]
        exact allocBound_cons_intro a _ [] h (allocBound_nil_intro _ h)

theorem loadPodcast_same (ca : String → Except String Nat) (s : AudioState) (p : Podcast)
    (hg : ((s.currentPodcast.map Podcast.id == some p.id) && s.sound.isSome) = true) :
    loadPodcast ca s p = ({ s with showPlayer := true }, []) := by
  unfold loadPodcast
  simp [hg]

theorem loadPodcast_none_err (ca : String → Except String Nat) (s : AudioState) (p : Podcast)
    (e : String)
    (hg : ((s.currentPodcast.map Podcast.id == some p.id) && s.sound.isSome) = false)
    (hs : s.sound = none)
    (hcr : soundCreate ca p.audio_url = Except.error e) :
    loadPodcast ca s p = (s, [AudioEvent.logError e]) := by
  unfold loadPodcast
  simp [hg, hs, hcr]

theorem loadPodcast_some_err (ca : String → Except String Nat) (s : AudioState) (p : Podcast)
    (e : String) (h : Nat)
    (hg : ((s.currentPodcast.map Podcast.id == some p.id) && s.sound.isSome) = false)
    (hs : s.sound = some h)
    (hcr : soundCreate ca p.audio_url = Except.error e) :
    loadPodcast ca s p =
      ({ (savePlaybackPosition s).1 with sound := none },
       (savePlaybackPosition s).2 ++ [AudioEvent.unload h, AudioEvent.logError e]) := by
  unfold loadPodcast
  simp only [hs] at hg
  simp at hg
  simp [hg, hs, hcr]
  exact hg

theorem loadPodcast_none_ok (ca : String → Except String Nat) (s : AudioState) (p : Podcast)
    (h' : Nat)
    (hg : ((s.currentPodcast.map Podcast.id == some p.id) && s.sound.isSome) = false)
    (hs : s.sound = none)
    (hcr : soundCreate ca p.audio_url = Except.ok h') :
    loadPodcast ca s p =
      ({ s with sound := some h'
                currentPodcast := some p
                showPlayer := true
                position := if loadSavedPosition s.store p.id > 0
                            then loadSavedPosition s.store p.id else s.position },
       [AudioEvent.create h'] ++
         (if loadSavedPosition s.store p.id > 0
          then [AudioEvent.seek h' (loadSavedPosition s.store p.id)] else [])) := by
  unfold loadPodcast
  by_cases hsp : loadSavedPosition s.store p.id > 0 <;>
    simp [hg, hs, hcr, hsp]

theorem loadPodcast_some_ok (ca : String → Except String Nat) (s : AudioState) (p : Podcast)
    (h h' : Nat)
    (hg : ((s.currentPodcast.map Podcast.id == some p.id) && s.sound.isSome) = false)
    (hs : s.sound = some h)
    (hcr : soundCreate ca p.audio_url = Except.ok h') :
    loadPodcast ca s p =
      ({ (savePlaybackPosition s).1 with
          sound := some h'
          currentPodcast := some p
          showPlayer := true
          position := if loadSavedPosition (savePlaybackPosition s).1.store p.id > 0
                      then loadSavedPosition (savePlaybackPosition s).1.store p.id
                      else (savePlaybackPosition s).1.position },
       (savePlaybackPosition s).2 ++ [AudioEvent.unload h, AudioEvent.create h'] ++
         (if loadSavedPosition (savePlaybackPosition s).1.store p.id > 0
          then [AudioEvent.seek h' (loadSavedPosition (savePlaybackPosition s).1.store p.id)]
          else [])) := by
  unfold loadPodcast
  simp only [hs] at hg
  simp at hg
  by_cases hsp : loadSavedPosition (savePlaybackPosition s).1.store p.id > 0 <;>
    simp [hg, hs, hcr, hsp] <;> exact hg

theorem allocBound_one (a : List Nat) (e1 : AudioEvent)
    (h0 : a.length ≤ 1) (h1 : (allocStep a e1).length ≤ 1) : allocBound a [e1] :=
  allocBound_cons_intro a e1 [] h0 (allocBound_nil_intro _ h1)

theorem allocBound_two (a : List Nat) (e1 e2 : AudioEvent)
    (h0 : a.length ≤ 1) (h1 : (allocStep a e1).length ≤ 1)
    (h2 : (allocStep (allocStep a e1) e2).length ≤ 1) : allocBound a [e1, e2] :=
  allocBound_cons_intro a e1 [e2] h0 (allocBound_one _ e2 h1 h2)

theorem allocBound_three (a : List Nat) (e1 e2 e3 : AudioEvent)
    (h0 : a.length ≤ 1) (h1 : (allocStep a e1).length ≤ 1)
    (h2 : (allocStep (allocStep a e1) e2).length ≤ 1)
    (h3 : (allocStep (allocStep (allocStep a e1) e2) e3).length ≤ 1) :
    allocBound a [e1, e2, e3] :=
  allocBound_cons_intro a e1 [e2, e3] h0 (allocBound_two _ e2 e3 h1 h2 h3)

theorem loadPodcast_alloc (ca : String → Except String Nat) (s : AudioState) (p : Podcast) :
    allocBound s.sound.toList (loadPodcast ca s p).2 ∧
    allocAfter s.sound.toList (loadPodcast ca s p).2 = (loadPodcast ca s p).1.sound.toList := by
  by_cases hg : ((s.currentPodcast.map Podcast.id == some p.id) && s.sound.isSome) = true
  · rw [loadPodcast_same ca s p hg]
    exact ⟨allocBound_nil_intro _ (optionToList_length_le_one _), rfl⟩
  · rw [Bool.not_eq_true] at hg
    cases hs : s.sound with
    | none =>
        cases hcr : soundCreate ca p.audio_url with
        | error e =>
            rw [loadPodcast_none_err ca s p e hg hs hcr]
            refine ⟨allocBound_one [] _ (by simp) (by simp [allocStep]), ?_⟩
            simp [allocAfter, allocStep, hs]
        | ok h' =>
            rw [loadPodcast_none_ok ca s p h' hg hs hcr]
            by_cases hsp : loadSavedPosition s.store p.id > 0
            · simp only [hsp, if_pos]
              refine ⟨allocBound_two [] _ _ (by simp) (by simp [allocStep]) (by simp [allocStep]), ?_⟩
              simp [allocAfter, allocStep]
            · simp only [hsp, if_neg, not_false_iff]
              refine ⟨?_, ?_⟩
              · simp only [List.append_nil]
                exact allocBound_one [] _ (by simp) (by simp [allocStep])
              · simp [allocAfter, allocStep]
    | some h =>
        cases hcr : soundCreate ca p.audio_url with
        | error e =>
            rw [loadPodcast_some_err ca s p e h hg hs hcr]
            refine ⟨?_, ?_⟩
            · refine allocBound_append_intro _ _ _ (allocBound_save _ s (by simp)) ?_
              rw [allocAfter_save]
              exact allocBound_two [h] _ _ (by simp) (by simp [allocStep]) (by simp [allocStep])
            · show allocAfter (some h).toList ((savePlaybackPosition s).2 ++ _) = _
              rw [allocAfter_append, allocAfter_save]
              simp [allocAfter, allocStep]
        | ok h' =>
            rw [loadPodcast_some_ok ca s p h h' hg hs hcr]
            by_cases hsp : loadSavedPosition (savePlaybackPosition s).1.store p.id > 0
            · simp only [hsp, if_pos]
              refine ⟨?_, ?_⟩
              · rw [List.append_assoc]
                refine allocBound_append_intro _ _ _ (allocBound_save _ s (by simp)) ?_
                rw [allocAfter_save]
                refine allocBound_append_intro _ _ _
                  (allocBound_two [h] _ _ (by simp) (by simp [allocStep]) (by simp [allocStep])) ?_
                exact allocBound_one _ _ (by simp [allocAfter, allocStep]) (by simp [allocAfter, allocStep])
              · rw [List.append_assoc, allocAfter_append, allocAfter_save]
                simp [allocAfter, allocStep]
            · simp only [hsp, if_neg, not_false_iff]
              refine ⟨?_, ?_⟩
              · rw [List.append_nil]
                refine allocBound_append_intro _ _ _ (allocBound_save _ s (by simp)) ?_
                rw [allocAfter_save]
                exact allocBound_two [h] _ _ (by simp) (by simp [allocStep]) (by simp [allocStep])
              · rw [List.append_nil, allocAfter_append, allocAfter_save]
                simp [allocAfter, allocStep]

theorem runLoads_alloc (ca : String → Except String Nat) (ps : List Podcast) (s : AudioState) :
    allocBound s.sound.toList (runLoads ca s ps).2 ∧
    allocAfter s.sound.toList (runLoads ca s ps).2 = (runLoads ca s ps).1.sound.toList := by
  induction ps generalizing s with
  | nil => exact ⟨allocBound_nil_intro _ (optionToList_length_le_one _), rfl⟩
  | cons p ps ih =>
      have h1 := loadPodcast_alloc ca s p
      have h2 := ih (loadPodcast ca s p).1
      have htr : (runLoads ca s (p :: ps)).2 =
          (loadPodcast ca s p).2 ++ (runLoads ca (loadPodcast ca s p).1 ps).2 := rfl
      have hst : (runLoads ca s (p :: ps)).1 = (runLoads ca (loadPodcast ca s p).1 ps).1 := rfl
      constructor
      · rw [htr]
        refine allocBound_append_intro _ _ _ h1.1 ?_
        rw [h1.2]
        exact h2.1
      · rw [htr, hst, allocAfter_append, h1.2]
        exact h2.2

/-- Claim C1: across every sequence of `loadPodcast` calls, at most one
underlying audio resource is allocated at any instant: every prefix of the
emitted event trace leaves at most one allocated handle; moreover a call
that switches away from a loaded item with a different id first persists
the outgoing position, then unloads the previous sound, and only then
creates the new sound from the new item's URL. -/
theorem loadPodcast_at_most_one_resource (ca : String → Except String Nat) (s : AudioState) :
    (∀ ps pre, pre <+: (runLoads ca s ps).2 →
        (allocAfter s.sound.toList pre).length ≤ 1) ∧
    (∀ p cp h h', s.currentPodcast = some cp → cp.id ≠ p.id → s.sound = some h →
        soundCreate ca p.audio_url = Except.ok h' →
        (loadPodcast ca s p).2 =
          (savePlaybackPosition s).2 ++ [AudioEvent.unload h, AudioEvent.create h'] ++
            (if loadSavedPosition (savePlaybackPosition s).1.store p.id > 0
             then [AudioEvent.seek h' (loadSavedPosition (savePlaybackPosition s).1.store p.id)]
             else [])) := by
  constructor
  · intro ps pre hpre
    exact (runLoads_alloc ca ps s).1 pre hpre
  · intro p cp h h' hcp hid hs hok
    have hg : ((s.currentPodcast.map Podcast.id == some p.id) && s.sound.isSome) = false := by
      simp [hcp, hid]
    rw [loadPodcast_some_ok ca s p h h' hg hs hok]

/-- Witness for C1 at a concrete loaded session and call sequence. -/
theorem loadPodcast_at_most_one_resource_witness :
    (allocAfter sLoaded.sound.toList (runLoads okCreate sLoaded [podB]).2).length ≤ 1 ∧
    (loadPodcast okCreate sLoaded podB).2 =
      (savePlaybackPosition sLoaded).2 ++ [AudioEvent.unload 7, AudioEvent.create 99] ++
        (if loadSavedPosition (savePlaybackPosition sLoaded).1.store podB.id > 0
         then [AudioEvent.seek 99 (loadSavedPosition (savePlaybackPosition sLoaded).1.store podB.id)]
         else []) :=
  ⟨(loadPodcast_at_most_one_resource okCreate sLoaded).1 [podB] _ (List.prefix_refl _),
   (loadPodcast_at_most_one_resource okCreate sLoaded).2 podB podA 7 99 rfl (by decide) rfl rfl⟩

/-- Claim C5: after `stopPlayback`, the current item is absent, playing is
false, position and duration are 0 and the player is hidden; the resource
reference is cleared, after first running the position persist and then the
unload of the resource when one was loaded. -/
theorem stopPlayback_clears_state (s : AudioState) :
    (stopPlayback s).1.currentPodcast = none ∧
    (stopPlayback s).1.isPlaying = false ∧
    (stopPlayback s).1.position = 0 ∧
    (stopPlayback s).1.duration = 0 ∧
    (stopPlayback s).1.showPlayer = false ∧
    (stopPlayback s).1.sound = none ∧
    (stopPlayback s).2 = (match s.sound with
      | some h => (savePlaybackPosition s).2 ++ [AudioEvent.unload h]
      | none => []) := by
  unfold stopPlayback
  cases hs : s.sound <;> simp [hs]

/-- Claim C6: calling `loadPodcast` with the currently loaded item's id
while a resource is loaded is idempotent: no events are emitted (so no
reallocation and no position reset) and the only state change is
`showPlayer = true`. -/
theorem loadPodcast_same_id_idempotent (ca : String → Except String Nat) (s : AudioState)
    (p cp : Podcast) (h : Nat)
    (hcp : s.currentPodcast = some cp) (hid : cp.id = p.id) (hs : s.sound = some h) :
    loadPodcast ca s p = ({ s with showPlayer := true }, []) := by
  apply loadPodcast_same
  simp [hcp, hs, hid]

/-- Witness for C6: re-loading `podA` while `podA` is loaded. -/
theorem loadPodcast_same_id_idempotent_witness :
    loadPodcast okCreate sLoaded podA = ({ sLoaded with showPlayer := true }, []) :=
  loadPodcast_same_id_idempotent okCreate sLoaded podA podA 7 rfl rfl rfl

/-- Claim C9: when the resource reports `didJustFinish`, the engine sets
playing to false and position to 0 while the current item, the sound
reference and the player visibility are all unchanged (the item stays
loaded rather than the session being torn down). -/
theorem completion_resets_without_unload (s : AudioState) (status : PlaybackStatus)
    (hl : status.isLoaded = true) (hf : status.didJustFinish = true) :
    (onPlaybackStatusUpdate s status).1.isPlaying = false ∧
    (onPlaybackStatusUpdate s status).1.position = 0 ∧
    (onPlaybackStatusUpdate s status).1.currentPodcast = s.currentPodcast ∧
    (onPlaybackStatusUpdate s status).1.sound = s.sound ∧
    (onPlaybackStatusUpdate s status).1.showPlayer = s.showPlayer := by
  unfold onPlaybackStatusUpdate
  simp [hl, hf]

/-- Witness for C9: a finish notification on the loaded session. -/
theorem completion_resets_without_unload_witness :
    (onPlaybackStatusUpdate sLoaded ⟨true, false, true⟩).1.isPlaying = false ∧
    (onPlaybackStatusUpdate sLoaded ⟨true, false, true⟩).1.position = 0 ∧
    (onPlaybackStatusUpdate sLoaded ⟨true, false, true⟩).1.currentPodcast = sLoaded.currentPodcast ∧
    (onPlaybackStatusUpdate sLoaded ⟨true, false, true⟩).1.sound = sLoaded.sound ∧
    (onPlaybackStatusUpdate sLoaded ⟨true, false, true⟩).1.showPlayer = sLoaded.showPlayer :=
  completion_resets_without_unload sLoaded ⟨true, false, true⟩ rfl rfl

theorem savePlaybackPosition_no_create (s : AudioState) (hdl : Nat) :
    AudioEvent.create hdl ∉ (savePlaybackPosition s).2 := by
  unfold savePlaybackPosition
  cases hcp : s.currentPodcast with
  | none => simp
  | some q => by_cases hp : s.position = 0 <;> simp [hp]

theorem storeNonzero_storageSet (store : List (String × Int × Int)) (key : String)
    (pos dur : Int) (hnz : storeNonzero store) (hp : pos ≠ 0) :
    storeNonzero (storageSet store key pos dur) := by
  intro e he
  unfold storageSet at he
  rcases List.mem_cons.mp he with rfl | hmem
  · exact hp
  · exact hnz e (List.mem_of_mem_filter hmem)

theorem savePlaybackPosition_nonzero (s : AudioState) (h : storeNonzero s.store) :
    storeNonzero (savePlaybackPosition s).1.store := by
  unfold savePlaybackPosition
  cases hcp : s.currentPodcast with
  | none => exact h
  | some q =>
      by_cases hp : s.position = 0
      · simp only [hp, if_pos rfl]
        exact h
      · simp only [if_neg hp]
        exact storeNonzero_storageSet _ _ _ _ h hp

theorem savePlaybackPosition_zero (s : AudioState)
    (h : s.currentPodcast = none ∨ s.position = 0) : savePlaybackPosition s = (s, []) := by
  unfold savePlaybackPosition
  rcases h with hcp | hp
  · rw [hcp]
  · cases hcp : s.currentPodcast with
    | none => rfl
    | some q => simp [hp]

theorem stopPlayback_store (s : AudioState) :
    (stopPlayback s).1.store = (match s.sound with
      | some _ => (savePlaybackPosition s).1.store
      | none => s.store) := by
  unfold stopPlayback
  cases hs : s.sound <;> simp [hs]

theorem loadPodcast_store (ca : String → Except String Nat) (s : AudioState) (p : Podcast) :
    (loadPodcast ca s p).1.store = s.store ∨
    (loadPodcast ca s p).1.store = (savePlaybackPosition s).1.store := by
  by_cases hg : ((s.currentPodcast.map Podcast.id == some p.id) && s.sound.isSome) = true
  · rw [loadPodcast_same ca s p hg]
    exact Or.inl rfl
  · rw [Bool.not_eq_true] at hg
    cases hs : s.sound with
    | none =>
        cases hcr : soundCreate ca p.audio_url with
        | error e =>
            rw [loadPodcast_none_err ca s p e hg hs hcr]
            exact Or.inl rfl
        | ok h' =>
            rw [loadPodcast_none_ok ca s p h' hg hs hcr]
            exact Or.inl rfl
    | some h =>
        cases hcr : soundCreate ca p.audio_url with
        | error e =>
            rw [loadPodcast_some_err ca s p e h hg hs hcr]
            exact Or.inr rfl
        | ok h' =>
            rw [loadPodcast_some_ok ca s p h h' hg hs hcr]
            exact Or.inr rfl

/-- Counterexample to C4 as stated: from a session satisfying the position
invariant (9000 of 120000), `seekTo (-5)` leaves the engine position at -5,
so the invariant is not preserved by every public operation. -/
theorem seekTo_breaks_invariant_counterexample :
    0 ≤ sLoaded.position ∧ sLoaded.position ≤ sLoaded.duration ∧
    (seekTo sLoaded (-5)).1.position = -5 ∧
    ¬(0 ≤ (seekTo sLoaded (-5)).1.position) := by decide

/-- Claim C4 (amended): `seekTo` writes the requested position verbatim,
without clamping, so an out-of-range request breaks 0 ≤ position ≤
duration at the engine level (the resource clamps only internally); the
skip operations, by contrast, do clamp and preserve the invariant. -/
theorem seekTo_optimistic_skips_clamped (s : AudioState) (p : Int)
    (hs : s.sound.isSome = true) :
    (seekTo s p).1.position = p ∧
    (0 ≤ s.position → s.position ≤ s.duration →
      (0 ≤ (skipForward s).1.position ∧ (skipForward s).1.position ≤ s.duration ∧
       0 ≤ (skipBackward s).1.position ∧ (skipBackward s).1.position ≤ s.duration)) := by
  obtain ⟨h, hh⟩ := Option.isSome_iff_exists.mp hs
  constructor
  · unfold seekTo
    simp [hh]
  · intro h0 hd
    unfold skipForward skipBackward seekTo
    simp only [hh]
    refine ⟨?_, ?_, ?_, ?_⟩ <;> simp <;> omega

/-- Witness for the amended C4 on the loaded session with request -5. -/
theorem seekTo_optimistic_skips_clamped_witness :
    (seekTo sLoaded (-5)).1.position = -5 ∧
    (0 ≤ sLoaded.position → sLoaded.position ≤ sLoaded.duration →
      (0 ≤ (skipForward sLoaded).1.position ∧
       (skipForward sLoaded).1.position ≤ sLoaded.duration ∧
       0 ≤ (skipBackward sLoaded).1.position ∧
       (skipBackward sLoaded).1.position ≤ sLoaded.duration)) :=
  seekTo_optimistic_skips_clamped sLoaded (-5) rfl

/-- A session at position 5000 of duration 10000 for the skip claims. -/
def sSkip : AudioState := { sLoaded with position := 5000, duration := 10000 }

/-- Claim C8: with a resource loaded and the position invariant holding,
skipForward and skipBackward move the position by 15000 ms clamped to
[0, duration], each implemented as a seek on the resource; in particular
from position 5000 and duration 10000, skipBackward yields 0 and
skipForward yields 10000. -/
theorem skip_adjusts_by_15000_clamped (s : AudioState) (h : Nat)
    (hs : s.sound = some h) (h0 : 0 ≤ s.position) (hd : s.position ≤ s.duration) :
    skipForward s = ({ s with position := min (s.position + 15000) s.duration },
                     [AudioEvent.seek h (min (s.position + 15000) s.duration)]) ∧
    skipBackward s = ({ s with position := max (s.position - 15000) 0 },
                      [AudioEvent.seek h (max (s.position - 15000) 0)]) ∧
    min (s.position + 15000) s.duration = max (min (s.position + 15000) s.duration) 0 ∧
    max (s.position - 15000) 0 = min (max (s.position - 15000) 0) s.duration ∧
    (s.position = 5000 → s.duration = 10000 →
      (skipBackward s).1.position = 0 ∧ (skipForward s).1.position = 10000) := by
  refine ⟨?_, ?_, by omega, by omega, ?_⟩
  · unfold skipForward seekTo
    simp [hs]
  · unfold skipBackward seekTo
    simp [hs]
  · intro h5 h10
    unfold skipForward skipBackward seekTo
    simp [hs, h5, h10]

/-- Witness for C8 at position 5000, duration 10000. -/
theorem skip_adjusts_by_15000_clamped_witness :
    (skipBackward sSkip).1.position = 0 ∧ (skipForward sSkip).1.position = 10000 :=
  (skip_adjusts_by_15000_clamped sSkip 7 rfl (by decide) (by decide)).2.2.2.2 rfl rfl

/-- Counterexample to C2 as stated: when creation of podB fails while podA
is loaded at position 9000, the session does not end idle: the previous
item is still current, playing is still true and position/duration are not
reset. -/
theorem load_failure_counterexample :
    (loadPodcast badCreate sLoaded podB).1.currentPodcast = some podA ∧
    (loadPodcast badCreate sLoaded podB).1.position = 9000 ∧
    (loadPodcast badCreate sLoaded podB).1.duration = 120000 ∧
    (loadPodcast badCreate sLoaded podB).1.isPlaying = true := by decide

/-- Claim C2 (amended): when resource acquisition fails, no exception
escapes (the error becomes a log entry terminating the trace), no resource
is created and the sound reference ends none, so no partially-loaded
resource lingers; but the rest of the session state is not reset:
currentPodcast, isPlaying, position, duration and showPlayer all keep
their prior values. -/
theorem load_failure_no_leak_no_reset (ca : String → Except String Nat) (s : AudioState)
    (p : Podcast) (e : String)
    (hg : ((s.currentPodcast.map Podcast.id == some p.id) && s.sound.isSome) = false)
    (herr : soundCreate ca p.audio_url = Except.error e) :
    (loadPodcast ca s p).1.sound = none ∧
    (loadPodcast ca s p).1.currentPodcast = s.currentPodcast ∧
    (loadPodcast ca s p).1.isPlaying = s.isPlaying ∧
    (loadPodcast ca s p).1.position = s.position ∧
    (loadPodcast ca s p).1.duration = s.duration ∧
    (loadPodcast ca s p).1.showPlayer = s.showPlayer ∧
    (∀ hdl, AudioEvent.create hdl ∉ (loadPodcast ca s p).2) ∧
    (∃ evs, (loadPodcast ca s p).2 = evs ++ [AudioEvent.logError e]) := by
  cases hs : s.sound with
  | none =>
      rw [loadPodcast_none_err ca s p e hg hs herr]
      refine ⟨hs, rfl, rfl, rfl, rfl, rfl, ?_, ⟨[], rfl⟩⟩
      intro hdl
      simp
  | some h =>
      rw [loadPodcast_some_err ca s p e h hg hs herr]
      have hf := savePlaybackPosition_fields s
      refine ⟨rfl, hf.2.1, hf.2.2.1, hf.2.2.2.1, hf.2.2.2.2.1, hf.2.2.2.2.2, ?_, ?_⟩
      · intro hdl
        simp only [List.mem_append]
        rintro (hmem | hmem)
        · exact savePlaybackPosition_no_create s hdl hmem
        · simp at hmem
      · exact ⟨(savePlaybackPosition s).2 ++ [AudioEvent.unload h], by simp⟩

/-- Witness for the amended C2 on a concrete failing load. -/
theorem load_failure_no_leak_no_reset_witness :
    (loadPodcast badCreate sLoaded podB).1.sound = none ∧
    (loadPodcast badCreate sLoaded podB).1.currentPodcast = sLoaded.currentPodcast := by
  have h := load_failure_no_leak_no_reset badCreate sLoaded podB "network error"
    (by decide) rfl
  exact ⟨h.1, h.2.1⟩

/-- Counterexample to C3 as stated: loading `podNoUrl` (no audioUrl) while
podA is loaded does change session state and does perform work: podA's
sound 7 is unloaded (sound reference drops to none) and podA's position is
persisted into the store. -/
theorem missing_url_counterexample :
    podNoUrl.audio_url = none ∧
    sLoaded.sound = some 7 ∧
    (loadPodcast okCreate sLoaded podNoUrl).1.sound = none ∧
    AudioEvent.unload 7 ∈ (loadPodcast okCreate sLoaded podNoUrl).2 ∧
    (loadPodcast okCreate sLoaded podNoUrl).1.store ≠ sLoaded.store := by decide

/-- Claim C3 (amended): with `audio_url` absent the engine does not crash —
creation rejects the null source and the error is caught and logged — and
no new resource is created; but the load is still attempted: a previously
loaded different item is persisted and unloaded first, so the sound
reference is cleared while currentPodcast, position, duration and
isPlaying keep their prior values. -/
theorem missing_url_fails_after_unload (ca : String → Except String Nat) (s : AudioState)
    (p : Podcast) (h : Nat)
    (hurl : p.audio_url = none) (hs : s.sound = some h)
    (hg : ((s.currentPodcast.map Podcast.id == some p.id) && s.sound.isSome) = false) :
    (loadPodcast ca s p).1.sound = none ∧
    AudioEvent.unload h ∈ (loadPodcast ca s p).2 ∧
    (∀ hdl, AudioEvent.create hdl ∉ (loadPodcast ca s p).2) ∧
    (loadPodcast ca s p).1.currentPodcast = s.currentPodcast ∧
    (loadPodcast ca s p).1.position = s.position ∧
    (loadPodcast ca s p).1.duration = s.duration ∧
    (loadPodcast ca s p).1.isPlaying = s.isPlaying ∧
    (∃ evs, (loadPodcast ca s p).2 = evs ++
      [AudioEvent.logError "Cannot load an AV asset from a null playback source"]) := by
  have herr : soundCreate ca p.audio_url =
      Except.error "Cannot load an AV asset from a null playback source" := by
    rw [hurl]
    rfl
  rw [loadPodcast_some_err ca s p _ h hg hs herr]
  have hf := savePlaybackPosition_fields s
  refine ⟨rfl, ?_, ?_, hf.2.1, hf.2.2.2.1, hf.2.2.2.2.1, hf.2.2.1, ?_⟩
  · simp
  · intro hdl
    simp only [List.mem_append]
    rintro (hmem | hmem)
    · exact savePlaybackPosition_no_create s hdl hmem
    · simp at hmem
  · exact ⟨(savePlaybackPosition s).2 ++ [AudioEvent.unload h], by simp⟩

/-- Witness for the amended C3 on a concrete load of an item without URL. -/
theorem missing_url_fails_after_unload_witness :
    (loadPodcast okCreate sLoaded podNoUrl).1.sound = none ∧
    AudioEvent.unload 7 ∈ (loadPodcast okCreate sLoaded podNoUrl).2 := by
  have h := missing_url_fails_after_unload okCreate sLoaded podNoUrl 7 rfl rfl (by decide)
  exact ⟨h.1, h.2.1⟩

/-- Claim C7: loading an item from an idle session seeks to its persisted
position exactly when that position strictly exceeds 1000 ms; the resulting
engine position is the stored position above the threshold and stays 0
below it. -/
theorem threshold_gated_restore (ca : String → Except String Nat) (s : AudioState)
    (p : Podcast) (h' : Nat) (sp d : Int)
    (hsound : s.sound = none) (hpos : s.position = 0)
    (hok : soundCreate ca p.audio_url = Except.ok h')
    (hrec : storageGet s.store (PLAYBACK_POSITION_KEY ++ p.id) = some (sp, d)) :
    (loadPodcast ca s p).1.position = (if sp > 1000 then sp else 0) ∧
    ((AudioEvent.seek h' sp) ∈ (loadPodcast ca s p).2 ↔ sp > 1000) := by
  have hg : ((s.currentPodcast.map Podcast.id == some p.id) && s.sound.isSome) = false := by
    simp [hsound]
  have hlsp : loadSavedPosition s.store p.id = if sp > 1000 then sp else 0 := by
    unfold loadSavedPosition
    rw [hrec]
  rw [loadPodcast_none_ok ca s p h' hg hsound hok]
  by_cases hsp : sp > 1000
  · have hv : loadSavedPosition s.store p.id = sp := by rw [hlsp, if_pos hsp]
    have hgt : loadSavedPosition s.store p.id > 0 := by omega
    simp [hv, hgt, hsp]
    exact ⟨fun hle => by omega, by omega⟩
  · have hv : loadSavedPosition s.store p.id = 0 := by rw [hlsp, if_neg hsp]
    have hgt : ¬(loadSavedPosition s.store p.id > 0) := by omega
    simp [hv, hgt, hsp, hpos]

/-- An idle session whose store has a 45000 ms record for podA. -/
def sRec45 : AudioState := initialState [(PLAYBACK_POSITION_KEY ++ "A", 45000, 120000)]

/-- An idle session whose store has a 500 ms record for podA. -/
def sRec500 : AudioState := initialState [(PLAYBACK_POSITION_KEY ++ "A", 500, 120000)]

/-- Witness for C7 at both sides of the threshold: a 45000 ms record is
restored with a seek; a 500 ms record is not restored. -/
theorem threshold_gated_restore_witness :
    ((loadPodcast okCreate sRec45 podA).1.position = (if (45000:Int) > 1000 then 45000 else 0) ∧
     ((AudioEvent.seek 99 45000) ∈ (loadPodcast okCreate sRec45 podA).2 ↔ (45000:Int) > 1000)) ∧
    ((loadPodcast okCreate sRec500 podA).1.position = (if (500:Int) > 1000 then 500 else 0) ∧
     ((AudioEvent.seek 99 500) ∈ (loadPodcast okCreate sRec500 podA).2 ↔ (500:Int) > 1000)) :=
  ⟨threshold_gated_restore okCreate sRec45 podA 99 45000 120000 rfl rfl rfl (by decide),
   threshold_gated_restore okCreate sRec500 podA 99 500 120000 rfl rfl rfl (by decide)⟩

/-- Claim C10: `savePlaybackPosition` writes nothing when no item is loaded
or the position is 0; the nonzero-position property of all store records is
preserved by the persist, stop and load paths; and a stop or item switch
performed at position 0 leaves the store exactly as it was. -/
theorem no_persist_at_zero_position (ca : String → Except String Nat)
    (s : AudioState) (p : Podcast) :
    (s.currentPodcast = none ∨ s.position = 0 → savePlaybackPosition s = (s, [])) ∧
    (storeNonzero s.store →
      storeNonzero (savePlaybackPosition s).1.store ∧
      storeNonzero (stopPlayback s).1.store ∧
      storeNonzero (loadPodcast ca s p).1.store) ∧
    (s.position = 0 →
      (stopPlayback s).1.store = s.store ∧ (loadPodcast ca s p).1.store = s.store) := by
  refine ⟨savePlaybackPosition_zero s, ?_, ?_⟩
  · intro hnz
    refine ⟨savePlaybackPosition_nonzero s hnz, ?_, ?_⟩
    · rw [stopPlayback_store]
      cases hs : s.sound with
      | none => exact hnz
      | some h => exact savePlaybackPosition_nonzero s hnz
    · rcases loadPodcast_store ca s p with h | h <;> rw [h]
      · exact hnz
      · exact savePlaybackPosition_nonzero s hnz
  · intro hp0
    have hz : savePlaybackPosition s = (s, []) := savePlaybackPosition_zero s (Or.inr hp0)
    constructor
    · rw [stopPlayback_store]
      cases hs : s.sound with
      | none => rfl
      | some h => rw [hz]
    · rcases loadPodcast_store ca s p with h | h
      · exact h
      · rw [h, hz]

/-- A session loaded at position 0 over a store holding an older nonzero
record for podA. -/
def sZero : AudioState :=
  { sLoaded with position := 0, store := [(PLAYBACK_POSITION_KEY ++ "A", 45000, 120000)] }

/-- Witness for C10: at position 0, the persist is skipped and a stop keeps
podA's previously persisted 45000 ms record intact. -/
theorem no_persist_at_zero_position_witness :
    savePlaybackPosition sZero = (sZero, []) ∧
    (stopPlayback sZero).1.store = sZero.store ∧
    storeNonzero (stopPlayback sZero).1.store := by
  have h := no_persist_at_zero_position okCreate sZero podB
  have hnz : storeNonzero sZero.store := by
    intro e he
    have he2 : e ∈ [(PLAYBACK_POSITION_KEY ++ "A", (45000 : Int), (120000 : Int))] := he
    obtain rfl := List.mem_singleton.mp he2
    decide
  exact ⟨h.1 (Or.inr rfl), (h.2.2 rfl).1, (h.2.1 hnz).2.1⟩
